import Mathlib

/-!
Shallow embedding of the IPL dashboard (src/python.py): the data-loading /
normalization pass (`load_matches`), the three sidebar filters, and the
aggregations feeding the charts.  Rows of the pandas DataFrame are modelled
as a `Row` structure; nullable columns are `Option`; dates are modelled as a
(year, day-of-year) pair ordered lexicographically, matching the
chronological order on datetimes with `.dt.year` as the year projection.
-/

namespace IPL

/-- A calendar date: year plus an index of the day within the year.
Chronological order is lexicographic, and `pandas` `.dt.year` is the
`year` field. -/
structure CDate where
  year : Int
  doy : Nat
deriving DecidableEq, Repr

/-- Chronological order on dates (the order pandas datetime comparison uses). -/
def dateLe (a b : CDate) : Bool :=
  decide (a.year < b.year ∨ (a.year = b.year ∧ a.doy ≤ b.doy))

/-- A row of the raw CSV (`pd.read_csv` output), before normalization.
`date` is the result of `pd.to_datetime(..., errors="coerce")`: `none` for an
unparseable value.  `winner` is `none` where the CSV cell is null.  `season`
holds the season column value when the table has one (see `RawTable.hasSeason`). -/
structure RawRow where
  date : Option CDate
  season : Option Int
  team1 : String
  team2 : String
  winner : Option String
  venue : Option String
  win_by_runs : Option Int
  win_by_wickets : Option Int
deriving DecidableEq, Repr

/-- The raw table: its rows, whether a `match_id` column is present (and its
values, one per row), and whether a `season` column is present. -/
structure RawTable where
  rows : List RawRow
  matchIds : Option (List Int)
  hasSeason : Bool
deriving DecidableEq, Repr

/-- A row of the normalized DataFrame returned by `load_matches`. -/
structure Row where
  match_id : Int
  date : Option CDate
  season : Option Int
  team1 : String
  team2 : String
  winner : String
  venue : Option String
  win_by_runs : Option Int
  win_by_wickets : Option Int
  result_type : String
deriving DecidableEq, Repr

/-- Lines 33-35 of src/python.py: the nested `np.where` computing
`result_type` from the (already `fillna`-ed) winner and the raw win margins. -/
def result_type (winner : String) (wbr wbw : Option Int) : String :=
  if winner = "No Result" then "No Result"
  else if wbr.getD 0 > 0 then "Won by Runs"
  else if wbw.getD 0 > 0 then "Won by Wickets"
  else "Other"

/-- Per-row part of `load_matches`: `winner` fillna with the sentinel
(line 25), season backfill from the year of `date` when the column is absent
(lines 28-30), and the `result_type` derivation (lines 33-35). -/
def normalizeRow (r : RawRow) (mid : Int) (hasSeason : Bool) : Row :=
  let w := r.winner.getD "No Result"
  { match_id := mid
    date := r.date
    season := if hasSeason then r.season else r.date.map (fun d => d.year)
    team1 := r.team1
    team2 := r.team2
    winner := w
    venue := r.venue
    win_by_runs := r.win_by_runs
    win_by_wickets := r.win_by_wickets
    result_type := result_type w r.win_by_runs r.win_by_wickets }

/-- `load_matches` (lines 12-37 of src/python.py): keep the `match_id` column
when present, otherwise backfill `np.arange(1, len(df)+1)` (lines 21-22), then
normalize every row. -/
def load_matches (t : RawTable) : List Row :=
  let mids : List Int :=
    match t.matchIds with
    | some ids => ids
    | none => (List.range t.rows.length).map (fun (i : Nat) => (i : Int) + 1)
  (t.rows.zip mids).map (fun p => normalizeRow p.1 p.2 t.hasSeason)

/-- Season predicate: `f["season"].isin(season_sel)`; a null season is never
a member. -/
def seasonPred (sel : List Int) (r : Row) : Bool :=
  match r.season with
  | some s => sel.contains s
  | none => false

/-- Lines 81-82: the season filter, skipped when the selection is empty. -/
def season_filter (sel : List Int) (f : List Row) : List Row :=
  if sel.isEmpty then f else f.filter (seasonPred sel)

/-- Date predicate: `(f["date"] >= start) & (f["date"] <= end)`; comparisons
against a null date are false in pandas, so a null date fails. -/
def datePred (s e : CDate) (r : Row) : Bool :=
  match r.date with
  | some d => dateLe s d && dateLe d e
  | none => false

/-- Lines 85-86: the date filter, applied unconditionally. -/
def date_filter (s e : CDate) (f : List Row) : List Row :=
  f.filter (datePred s e)

/-- Team predicate: `f["team1"].isin(team_sel) | f["team2"].isin(team_sel)`. -/
def teamPred (sel : List String) (r : Row) : Bool :=
  sel.contains r.team1 || sel.contains r.team2

/-- Lines 89-90: the team filter, skipped when the selection is empty. -/
def team_filter (sel : List String) (f : List Row) : List Row :=
  if sel.isEmpty then f else f.filter (teamPred sel)

/-- Lines 79-90: the filter pipeline in source order
(season, then date, then team). -/
def apply_filters (ssel : List Int) (s e : CDate) (tsel : List String)
    (m : List Row) : List Row :=
  team_filter tsel (date_filter s e (season_filter ssel m))

/-- Helper for `uniq`: keep each element not already in `seen`, threading the
set of values met so far. -/
def uniqAux {α : Type} [DecidableEq α] (seen : List α) : List α → List α
  | [] => []
  | x :: xs => if x ∈ seen then uniqAux seen xs else x :: uniqAux (x :: seen) xs

/-- Distinct values of a list in order of first occurrence (the key order a
pandas hash-table factorization produces). -/
def uniq {α : Type} [DecidableEq α] (l : List α) : List α :=
  uniqAux [] l

/-- Stable insertion: put `x` before the first element `y` with `le x y`. -/
def insertLe {α : Type} (le : α → α → Bool) (x : α) : List α → List α
  | [] => [x]
  | y :: ys => if le x y then x :: y :: ys else y :: insertLe le x ys

/-- Stable insertion sort by the Boolean relation `le`
("`a` may come before `b`"): earlier elements stay before tied later ones. -/
def sortLe {α : Type} (le : α → α → Bool) : List α → List α
  | [] => []
  | x :: xs => insertLe le x (sortLe le xs)

/-- Descending-count order on (value, count) pairs; ties compare as equal, so
a stable sort keeps them in first-occurrence order. -/
def countLe (a b : String × Nat) : Bool :=
  b.2 ≤ a.2

/-- Ascending order on `Int`, as a Boolean relation for `sortLe`. -/
def intLe (a b : Int) : Bool :=
  a ≤ b

/-- `Series.value_counts()`: pair each distinct value (in first-occurrence
order) with its count, then stably sort by count descending. -/
def valueCounts (l : List String) : List (String × Nat) :=
  sortLe countLe ((uniq l).map (fun x => (x, l.count x)))

/-- The rows whose winner is not the "No Result" sentinel
(`f[f["winner"] != "No Result"]`). -/
def winRows (f : List Row) : List Row :=
  f.filter (fun r => !(r.winner == "No Result"))

/-- Line 105 / line 134: `f[f["winner"] != "No Result"]["winner"].value_counts()`. -/
def winsSeries (f : List Row) : List (String × Nat) :=
  valueCounts ((winRows f).map (fun r => r.winner))

/-- Lines 134-136: the top-10 win leaderboard, `value_counts().head(10)`. -/
def win_counts (f : List Row) : List (String × Nat) :=
  (winsSeries f).take 10

/-- Line 106: `wins.index[0] if len(wins) else "N/A"`. -/
def top_team (f : List Row) : String :=
  ((winsSeries f).head?.map (fun p => p.1)).getD "N/A"

/-- Line 107: `int(wins.iloc[0]) if len(wins) else 0`. -/
def top_team_wins (f : List Row) : Nat :=
  ((winsSeries f).head?.map (fun p => p.2)).getD 0

/-- Line 129: `f.groupby("season")["match_id"].count()` — groupby with the
default `sort=True` (keys ascending) and `dropna=True` (null-season rows
dropped); the count of the never-null `match_id` is the group size. -/
def season_counts (f : List Row) : List (Int × Nat) :=
  (sortLe intLe (uniq (f.filterMap (fun r => r.season)))).map
    (fun s => (s, f.countP (fun r => r.season == some s)))

/-- Line 159: the rows that survive `groupby(["season", "winner"])` after the
"No Result" exclusion — groupby drops rows whose season key is null. -/
def winGrouped (f : List Row) : List Row :=
  (winRows f).filter (fun r => r.season.isSome)

/-- The distinct seasons appearing in the grouped win rows (the columns of the
pivot at line 160). -/
def matrixSeasons (f : List Row) : List Int :=
  sortLe intLe (uniq ((winGrouped f).filterMap (fun r => r.season)))

/-- The distinct winners appearing in the grouped win rows (the index of the
pivot at line 160). -/
def matrixWinners (f : List Row) : List String :=
  uniq ((winGrouped f).map (fun r => r.winner))

/-- One cell of the pivot after `.fillna(0)`: the number of grouped win rows
with this winner and season (0 when the pair never occurs). -/
def cellCount (f : List Row) (w : String) (s : Int) : Nat :=
  (winGrouped f).countP (fun r => r.winner == w && r.season == some s)

/-- Line 160: `win_matrix.pivot(index="winner", columns="season",
values="match_id").fillna(0)`, flattened to (winner, season, count) cells:
one cell for every pair in the pivot index × pivot columns. -/
def pivotGrid (f : List Row) : List (String × Int × Nat) :=
  (matrixWinners f).flatMap (fun w =>
    (matrixSeasons f).map (fun s => (w, s, cellCount f w s)))

/-- Lines 187-188: `f["result_type"].value_counts()`. -/
def result_counts (f : List Row) : List (String × Nat) :=
  valueCounts (f.map (fun r => r.result_type))

/-- Everything the dashboard computes below the empty-result guard: the four
metric cards (lines 100-107) and the chart inputs (lines 129-189). -/
structure Aggregates where
  total_matches : Nat
  no_result : Nat
  topTeam : String
  topTeamWins : Nat
  seasonSeries : List (Int × Nat)
  leaderboard : List (String × Nat)
  grid : List (String × Int × Nat)
  resultDist : List (String × Nat)
deriving DecidableEq, Repr

/-- What a single interaction renders: either the empty-result warning
(lines 93-95, `st.warning` + `st.stop()`) or the aggregates. -/
inductive InteractionResult where
  | emptyWarning : InteractionResult
  | rendered : Aggregates → InteractionResult
deriving DecidableEq, Repr

/-- The aggregates computed from a (non-empty) filtered frame. -/
def aggregates (f : List Row) : Aggregates :=
  { total_matches := f.length
    no_result := f.countP (fun r => r.winner == "No Result")
    topTeam := top_team f
    topTeamWins := top_team_wins f
    seasonSeries := season_counts f
    leaderboard := win_counts f
    grid := pivotGrid f
    resultDist := result_counts f }

/-- One interaction of the script below the data load: apply the filters
(lines 79-90), then either stop with the warning if the result is empty
(lines 93-95) or compute all aggregations over it. -/
def run_interaction (m : List Row) (ssel : List Int) (s e : CDate)
    (tsel : List String) : InteractionResult :=
  let f := apply_filters ssel s e tsel m
  if f.isEmpty then InteractionResult.emptyWarning
  else InteractionResult.rendered (aggregates f)

/-! Definitions written from the spec's words, for comparison with the
source-derived ones above. -/

/-- Codepoint-wise lexicographic order on character lists (the usual
ascending order on names, spelled out so it evaluates). -/
def charListLt : List Char → List Char → Bool
  | [], [] => false
  | [], _ :: _ => true
  | _ :: _, [] => false
  | a :: as, b :: bs =>
    if a.val < b.val then true
    else if b.val < a.val then false
    else charListLt as bs

/-- Modelled from the spec: the leaderboard ordering it mandates — "sorted
descending by count ... ties broken by a deterministic secondary key (name
ascending)". -/
def specLeaderboardOrdered (l : List (String × Nat)) : Prop :=
  List.Pairwise
    (fun a b => b.2 < a.2 ∨ (a.2 = b.2 ∧ charListLt a.1.data b.1.data = true)) l

/-- Modelled from the spec: "the filtered set's season list" — the distinct
non-null seasons of the filtered set itself. -/
def claimSeasons (f : List Row) : List Int :=
  uniq (f.filterMap (fun r => r.season))

/-- Modelled from the spec: "the filtered set's winner list" — the distinct
winners of the filtered set itself, "No Result" excluded. -/
def claimWinners (f : List Row) : List String :=
  uniq ((winRows f).map (fun r => r.winner))

/-! Concrete fixtures used by witnesses and counterexamples. -/

/-- Fixture: a filtered-view row with the given id, season, winner, margins;
its date is a fixed valid date and its `result_type` is the derived one. -/
def mkRow (mid : Int) (season : Option Int) (w : String)
    (wbr wbw : Option Int) : Row :=
  { match_id := mid
    date := some ⟨2020, 1⟩
    season := season
    team1 := "T1"
    team2 := "T2"
    winner := w
    venue := none
    win_by_runs := wbr
    win_by_wickets := wbw
    result_type := result_type w wbr wbw }

/-- Fixture for Scenario C: two Mumbai wins and one Chennai win. -/
def scenC : List Row :=
  [mkRow 1 (some 2020) "Mumbai" (some 20) none,
   mkRow 2 (some 2020) "Mumbai" none (some 5),
   mkRow 3 (some 2020) "Chennai" (some 1) none]

/-- Fixture: two tied winners whose first-occurrence order ("B" first)
is the reverse of name-ascending order. -/
def tieF : List Row :=
  [mkRow 1 (some 2020) "B" (some 1) none,
   mkRow 2 (some 2020) "A" (some 1) none]

/-- Fixture: one match whose season is null. -/
def nullSeasonF : List Row :=
  [mkRow 1 none "X" (some 1) none]

/-- Fixture: a 2020 win plus a 2021 "No Result" match, so 2021 is a season of
the filtered set but not of the grouped win rows. -/
def c8F : List Row :=
  [mkRow 1 (some 2020) "Mumbai" (some 1) none,
   mkRow 2 (some 2021) "No Result" none none]

/-- Fixture: wins by two teams in two different seasons, giving a 2×2 grid
with two zero cells. -/
def wF : List Row :=
  [mkRow 1 (some 2020) "Mumbai" (some 1) none,
   mkRow 2 (some 2021) "Chennai" (some 1) none]

/-- Fixture: a raw table without `match_id` and without `season` columns,
holding one row with a parseable date. -/
def ncT : RawTable :=
  { rows := [{ date := some ⟨2021, 5⟩
               season := none
               team1 := "T1"
               team2 := "T2"
               winner := some "X"
               venue := none
               win_by_runs := some 1
               win_by_wickets := none }]
    matchIds := none
    hasSeason := false }

/-- The row `load_matches ncT` produces. -/
def ncRow : Row :=
  { match_id := 1
    date := some ⟨2021, 5⟩
    season := some 2021
    team1 := "T1"
    team2 := "T2"
    winner := "X"
    venue := none
    win_by_runs := some 1
    win_by_wickets := none
    result_type := "Won by Runs" }

/-- Fixture: a raw table whose source already has a `match_id` column with a
duplicated value. -/
def c2T : RawTable :=
  { rows := [{ date := some ⟨2020, 1⟩
               season := some 2020
               team1 := "T1"
               team2 := "T2"
               winner := some "X"
               venue := none
               win_by_runs := some 1
               win_by_wickets := none },
             { date := some ⟨2020, 2⟩
               season := some 2020
               team1 := "T1"
               team2 := "T2"
               winner := some "Y"
               venue := none
               win_by_runs := none
               win_by_wickets := some 4 }]
    matchIds := some [7, 7]
    hasSeason := true }

/-- The same two raw rows as `c2T` but with no `match_id` column. -/
def c2T0 : RawTable :=
  { rows := c2T.rows
    matchIds := none
    hasSeason := true }

/-- Fixture: a row whose date failed to parse. -/
def nullDateRow : Row :=
  mkRow 9 (some 2020) "X" (some 1) none

/-- A row identical to `nullDateRow` except its date is null. -/
def nullDateRow0 : Row :=
  { nullDateRow with date := none }

/-- A wide date range used by witnesses. -/
def dLo : CDate := ⟨2000, 0⟩

/-- Upper end of the witnesses' date range. -/
def dHi : CDate := ⟨2030, 0⟩

/-! Helper lemmas about `uniq`, the stable insertion sort, counts and the
filter combinators. -/

theorem mem_uniqAux {α : Type} [DecidableEq α] (seen : List α) (l : List α) (a : α) :
    a ∈ uniqAux seen l ↔ a ∈ l ∧ a ∉ seen := by
  induction l generalizing seen with
  | nil => simp [uniqAux]
  | cons x xs ih =>
    by_cases hx : x ∈ seen
    · simp only [uniqAux, if_pos hx, ih, List.mem_cons]
      constructor
      · rintro ⟨h1, h2⟩
        exact ⟨Or.inr h1, h2⟩
      · rintro ⟨rfl | h1, h2⟩
        · exact absurd hx h2
        · exact ⟨h1, h2⟩
    · simp only [uniqAux, if_neg hx, List.mem_cons, ih]
      by_cases hax : a = x
      · subst hax
        tauto
      · tauto

theorem nodup_uniqAux {α : Type} [DecidableEq α] (seen : List α) (l : List α) :
    (uniqAux seen l).Nodup := by
  induction l generalizing seen with
  | nil => simp [uniqAux]
  | cons x xs ih =>
    by_cases hx : x ∈ seen
    · simpa [uniqAux, if_pos hx] using ih seen
    · simp only [uniqAux, if_neg hx]
      rw [List.nodup_cons]
      refine ⟨fun hmem => ?_, ih (x :: seen)⟩
      exact ((mem_uniqAux _ _ _).mp hmem).2 (List.mem_cons_self x seen)

theorem mem_uniq {α : Type} [DecidableEq α] (l : List α) (a : α) :
    a ∈ uniq l ↔ a ∈ l := by
  simp [uniq, mem_uniqAux]

theorem nodup_uniq {α : Type} [DecidableEq α] (l : List α) : (uniq l).Nodup :=
  nodup_uniqAux [] l

theorem perm_insertLe {α : Type} (le : α → α → Bool) (x : α) (l : List α) :
    (insertLe le x l).Perm (x :: l) := by
  induction l with
  | nil => simp [insertLe]
  | cons y ys ih =>
    by_cases h : le x y
    · simp [insertLe, h]
    · simp only [insertLe, if_neg h]
      exact (ih.cons y).trans (List.Perm.swap x y ys)

theorem perm_sortLe {α : Type} (le : α → α → Bool) (l : List α) :
    (sortLe le l).Perm l := by
  induction l with
  | nil => simp [sortLe]
  | cons x xs ih => exact (perm_insertLe le x (sortLe le xs)).trans (ih.cons x)

theorem mem_sortLe {α : Type} (le : α → α → Bool) (l : List α) (a : α) :
    a ∈ sortLe le l ↔ a ∈ l :=
  (perm_sortLe le l).mem_iff

theorem pairwise_insertLe {α : Type} (le : α → α → Bool)
    (htot : ∀ a b, le a b = true ∨ le b a = true)
    (htrans : ∀ a b c, le a b = true → le b c = true → le a c = true)
    (x : α) (l : List α) (hl : l.Pairwise (fun a b => le a b = true)) :
    (insertLe le x l).Pairwise (fun a b => le a b = true) := by
  induction l with
  | nil => simp [insertLe]
  | cons y ys ih =>
    rcases List.pairwise_cons.mp hl with ⟨hy, hys⟩
    by_cases h : le x y
    · simp only [insertLe, if_pos h]
      rw [List.pairwise_cons]
      refine ⟨fun z hz => ?_, hl⟩
      rcases List.mem_cons.mp hz with rfl | hz
      · exact h
      · exact htrans x y z h (hy z hz)
    · simp only [insertLe, if_neg h]
      rw [List.pairwise_cons]
      refine ⟨fun z hz => ?_, ih hys⟩
      rcases (perm_insertLe le x ys).mem_iff.mp hz with hz'
      rcases List.mem_cons.mp hz' with rfl | hz''
      · rcases htot z y with hzy | hyz
        · exact absurd hzy h
        · exact hyz
      · exact hy z hz''

theorem pairwise_sortLe {α : Type} (le : α → α → Bool)
    (htot : ∀ a b, le a b = true ∨ le b a = true)
    (htrans : ∀ a b c, le a b = true → le b c = true → le a c = true)
    (l : List α) : (sortLe le l).Pairwise (fun a b => le a b = true) := by
  induction l with
  | nil => simp [sortLe]
  | cons x xs ih => exact pairwise_insertLe le htot htrans x (sortLe le xs) ih

theorem count_map_eq_countP {α β : Type} [DecidableEq β] (f : α → β)
    (l : List α) (b : β) :
    (l.map f).count b = l.countP (fun a => f a == b) := by
  rw [List.count, List.countP_map]
  rfl

theorem filter_comm {α : Type} (p q : α → Bool) (l : List α) :
    (l.filter p).filter q = (l.filter q).filter p := by
  simp [List.filter_filter, Bool.and_comm]

theorem season_filter_eq_filter (sel : List Int) (f : List Row) :
    season_filter sel f = f.filter (fun r => sel.isEmpty || seasonPred sel r) := by
  by_cases h : sel.isEmpty
  · simp [season_filter, h]
  · simp [season_filter, h]

theorem team_filter_eq_filter (sel : List String) (f : List Row) :
    team_filter sel f = f.filter (fun r => sel.isEmpty || teamPred sel r) := by
  by_cases h : sel.isEmpty
  · simp [team_filter, h]
  · simp [team_filter, h]

theorem season_filter_subset (sel : List Int) (f : List Row) (r : Row)
    (h : r ∈ season_filter sel f) : r ∈ f := by
  rw [season_filter_eq_filter] at h
  exact (List.mem_filter.mp h).1

theorem date_filter_subset (s e : CDate) (f : List Row) (r : Row)
    (h : r ∈ date_filter s e f) : r ∈ f :=
  (List.mem_filter.mp h).1

theorem team_filter_subset (sel : List String) (f : List Row) (r : Row)
    (h : r ∈ team_filter sel f) : r ∈ f := by
  rw [team_filter_eq_filter] at h
  exact (List.mem_filter.mp h).1

theorem datePred_iff (s e : CDate) (r : Row) :
    datePred s e r = true ↔
      ∃ d, r.date = some d ∧ dateLe s d = true ∧ dateLe d e = true := by
  cases hd : r.date with
  | none => simp [datePred, hd]
  | some d => simp [datePred, hd]

/-! The claims. -/

/-- C1: every row of the loaded table has `result_type` equal to the pure
function of (winner, win_by_runs, win_by_wickets): "No Result" if the winner
is the sentinel; else "Won by Runs" if win_by_runs (missing treated as 0) is
positive; else "Won by Wickets" if win_by_wickets (missing treated as 0) is
positive; else "Other". -/
theorem C1_result_type_pure (t : RawTable) (r : Row) (hr : r ∈ load_matches t) :
    r.result_type =
      (if r.winner = "No Result" then "No Result"
       else if r.win_by_runs.getD 0 > 0 then "Won by Runs"
       else if r.win_by_wickets.getD 0 > 0 then "Won by Wickets"
       else "Other") := by
  simp only [load_matches, List.mem_map] at hr
  obtain ⟨p, hp, rfl⟩ := hr
  rfl

/-- Witness for C1: the concrete table `ncT` and its loaded row. -/
theorem C1_result_type_pure_witness :
    ncRow ∈ load_matches ncT ∧
    ncRow.result_type =
      (if ncRow.winner = "No Result" then "No Result"
       else if ncRow.win_by_runs.getD 0 > 0 then "Won by Runs"
       else if ncRow.win_by_wickets.getD 0 > 0 then "Won by Wickets"
       else "Other") :=
  ⟨by decide, C1_result_type_pure ncT ncRow (by decide)⟩

/-- C2 counterexample: a source file that already carries a `match_id` column
with duplicate values is passed through unchanged, so the normalized table's
ids are not pairwise distinct. -/
theorem C2_counterexample :
    (load_matches c2T).map (fun r => r.match_id) = [7, 7] ∧
    ¬ List.Pairwise (fun a b : Int => a ≠ b)
        ((load_matches c2T).map (fun r => r.match_id)) := by
  refine ⟨rfl, fun h => ?_⟩
  rw [show (load_matches c2T).map (fun r => r.match_id) = [7, 7] from rfl] at h
  rcases List.pairwise_cons.mp h with ⟨h7, _⟩
  exact h7 7 (List.mem_cons_self 7 []) rfl

/-- C2 amended: the loader guarantees pairwise-distinct `match_id` values
only when the source table has no `match_id` column (the backfilled ids are
1..N); a pre-existing column is kept as-is, duplicates included. -/
theorem C2_match_id_unique_when_absent (t : RawTable) (h : t.matchIds = none) :
    List.Pairwise (fun a b : Int => a ≠ b)
      ((load_matches t).map (fun r => r.match_id)) := by
  have hmap : (load_matches t).map (fun r => r.match_id)
      = (List.range t.rows.length).map (fun (i : Nat) => (i : Int) + 1) := by
    simp only [load_matches, h, List.map_map]
    have h2 : ((fun r : Row => r.match_id) ∘
        fun p : RawRow × Int => normalizeRow p.1 p.2 t.hasSeason) = Prod.snd := rfl
    rw [h2, List.map_snd_zip]
    rw [List.length_map, List.length_range]
  rw [hmap]
  have hinj : Function.Injective (fun i : Nat => (i : Int) + 1) := by
    intro i j hij
    dsimp only at hij
    omega
  exact List.Nodup.map hinj (List.nodup_range _)

/-- Witness for the amended C2: the two-row table without a `match_id`
column gets distinct backfilled ids. -/
theorem C2_match_id_unique_when_absent_witness :
    c2T0.matchIds = none ∧
    List.Pairwise (fun a b : Int => a ≠ b)
      ((load_matches c2T0).map (fun r => r.match_id)) :=
  ⟨rfl, C2_match_id_unique_when_absent c2T0 rfl⟩

/-- C3: an empty season selection and an empty team selection are identity
filters — they return the input row set unchanged, so the pipeline with an
empty selection equals the pipeline without that filter stage. -/
theorem C3_empty_selection_identity :
    (∀ f : List Row, season_filter [] f = f) ∧
    (∀ f : List Row, team_filter [] f = f) ∧
    (∀ (s e : CDate) (tsel : List String) (m : List Row),
      apply_filters [] s e tsel m = team_filter tsel (date_filter s e m)) ∧
    (∀ (ssel : List Int) (s e : CDate) (m : List Row),
      apply_filters ssel s e [] m = date_filter s e (season_filter ssel m)) := by
  refine ⟨fun f => by simp [season_filter], fun f => by simp [team_filter], ?_, ?_⟩
  · intro s e tsel m
    simp [apply_filters, season_filter]
  · intro ssel s e m
    simp [apply_filters, team_filter]

/-- C4: the date filter keeps exactly the rows whose date `d` satisfies
`start ≤ d ≤ end` (both bounds inclusive), and a row with a null date always
fails the filter. -/
theorem C4_date_filter_inclusive (s e : CDate) (f : List Row) (r : Row) :
    (r ∈ date_filter s e f ↔
      r ∈ f ∧ ∃ d, r.date = some d ∧ dateLe s d = true ∧ dateLe d e = true) ∧
    (r.date = none → r ∉ date_filter s e f) := by
  have hmem : r ∈ date_filter s e f ↔ r ∈ f ∧ datePred s e r = true :=
    List.mem_filter
  constructor
  · rw [hmem, datePred_iff]
  · intro hd hr
    rcases (datePred_iff s e r).mp (hmem.mp hr).2 with ⟨d, hsome, _, _⟩
    rw [hd] at hsome
    exact Option.noConfusion hsome

/-- Witness for C4: a null-date row is excluded from the filter output. -/
theorem C4_date_filter_inclusive_witness :
    nullDateRow0.date = none ∧
    nullDateRow0 ∉ date_filter dLo dHi [nullDateRow0] :=
  ⟨rfl, (C4_date_filter_inclusive dLo dHi [nullDateRow0] nullDateRow0).2 rfl⟩

/-- C9: whenever the filters leave an empty set, the interaction ends in the
warning state, which is distinguishable from (never equal to) any rendered
aggregation output; no aggregate is part of that state. -/
theorem C9_empty_guard (m : List Row) (ssel : List Int) (s e : CDate)
    (tsel : List String) (h : apply_filters ssel s e tsel m = []) :
    run_interaction m ssel s e tsel = InteractionResult.emptyWarning ∧
    ∀ a : Aggregates,
      InteractionResult.emptyWarning ≠ InteractionResult.rendered a := by
  constructor
  · simp [run_interaction, h]
  · intro a h'
    exact InteractionResult.noConfusion h'

/-- Witness for C9: the empty table filters to the empty set and yields the
warning state. -/
theorem C9_empty_guard_witness :
    apply_filters [] dLo dHi [] ([] : List Row) = [] ∧
    run_interaction [] [] dLo dHi [] = InteractionResult.emptyWarning :=
  ⟨rfl, (C9_empty_guard [] [] dLo dHi [] rfl).1⟩

/-- C5: the three filter predicates are pure row-level tests, so applying
them in any of the six orders yields the same row set as the source order
(season, then date, then team). -/
theorem C5_filter_order_commutes (ssel : List Int) (s e : CDate)
    (tsel : List String) (m : List Row) :
    season_filter ssel (team_filter tsel (date_filter s e m)) =
        apply_filters ssel s e tsel m ∧
    date_filter s e (season_filter ssel (team_filter tsel m)) =
        apply_filters ssel s e tsel m ∧
    date_filter s e (team_filter tsel (season_filter ssel m)) =
        apply_filters ssel s e tsel m ∧
    team_filter tsel (season_filter ssel (date_filter s e m)) =
        apply_filters ssel s e tsel m ∧
    season_filter ssel (date_filter s e (team_filter tsel m)) =
        apply_filters ssel s e tsel m := by
  simp only [apply_filters, season_filter_eq_filter, team_filter_eq_filter,
    date_filter]
  refine ⟨?_, ?_, ?_, ?_, ?_⟩
  all_goals
    simp only [List.filter_filter]
    apply List.filter_congr
    intro r _
    cases h1 : ssel.isEmpty || seasonPred ssel r <;>
      cases h2 : datePred s e r <;>
      cases h3 : tsel.isEmpty || teamPred tsel r <;> rfl

/-- C10: the date filter is applied unconditionally (unlike the guarded
season and team filters), so every row of every filtered view has a non-null
date; and for a table whose `season` was derived from `date`, every filtered
row also has a non-null season. -/
theorem C10_date_always_filtered :
    (∀ (ssel : List Int) (s e : CDate) (tsel : List String) (m : List Row)
        (r : Row), r ∈ apply_filters ssel s e tsel m → r.date ≠ none) ∧
    (∀ t : RawTable, t.hasSeason = false →
      ∀ (ssel : List Int) (s e : CDate) (tsel : List String) (r : Row),
        r ∈ apply_filters ssel s e tsel (load_matches t) → r.season ≠ none) := by
  have hdate : ∀ (ssel : List Int) (s e : CDate) (tsel : List String)
      (m : List Row) (r : Row),
      r ∈ apply_filters ssel s e tsel m → r.date ≠ none := by
    intro ssel s e tsel m r hr hnone
    have h1 : r ∈ date_filter s e (season_filter ssel m) :=
      team_filter_subset _ _ _ hr
    rcases (datePred_iff s e r).mp (List.mem_filter.mp h1).2 with ⟨d, hd, _, _⟩
    rw [hnone] at hd
    exact Option.noConfusion hd
  refine ⟨hdate, fun t ht ssel s e tsel r hr => ?_⟩
  have hrd : r.date ≠ none := hdate ssel s e tsel (load_matches t) r hr
  have hrm : r ∈ load_matches t :=
    season_filter_subset _ _ _
      (date_filter_subset _ _ _ _ (team_filter_subset _ _ _ hr))
  simp only [load_matches, List.mem_map] at hrm
  obtain ⟨p, hp, rfl⟩ := hrm
  have hseason : (normalizeRow p.1 p.2 t.hasSeason).season
      = if t.hasSeason then p.1.season else p.1.date.map (fun d => d.year) := rfl
  have hdate2 : (normalizeRow p.1 p.2 t.hasSeason).date = p.1.date := rfl
  rw [hdate2] at hrd
  rw [hseason, ht, if_neg Bool.false_ne_true]
  cases hpd : p.1.date with
  | none => exact absurd hpd hrd
  | some d => simp [hpd]

/-- Witness for C10: the loaded row of `ncT` (whose season came from the
date) survives a wide filter with non-null date and season. -/
theorem C10_date_always_filtered_witness :
    (ncT.hasSeason = false ∧
      ncRow ∈ apply_filters [] dLo dHi [] (load_matches ncT)) ∧
    ncRow.date ≠ none ∧ ncRow.season ≠ none :=
  ⟨⟨rfl, by decide⟩,
   C10_date_always_filtered.1 [] dLo dHi [] (load_matches ncT) ncRow (by decide),
   C10_date_always_filtered.2 ncT rfl [] dLo dHi [] ncRow (by decide)⟩

/-! Supporting lemmas for the aggregation claims. -/

theorem valueCounts_sorted (l : List String) :
    (valueCounts l).Pairwise (fun a b => b.2 ≤ a.2) := by
  have htot : ∀ a b : String × Nat, countLe a b = true ∨ countLe b a = true := by
    intro a b
    simp only [countLe, decide_eq_true_eq]
    omega
  have htrans : ∀ a b c : String × Nat,
      countLe a b = true → countLe b c = true → countLe a c = true := by
    intro a b c hab hbc
    simp only [countLe, decide_eq_true_eq] at hab hbc ⊢
    omega
  have h := pairwise_sortLe countLe htot htrans
    ((uniq l).map (fun x => (x, l.count x)))
  refine h.imp ?_
  intro a b hab
  simpa [countLe] using hab

theorem valueCounts_mem (l : List String) (t : String) (c : Nat)
    (h : (t, c) ∈ valueCounts l) : t ∈ l ∧ c = l.count t := by
  rw [valueCounts, mem_sortLe] at h
  rcases List.mem_map.mp h with ⟨x, hx, heq⟩
  simp only [Prod.mk.injEq] at heq
  obtain ⟨rfl, rfl⟩ := heq
  exact ⟨(mem_uniq _ _).mp hx, rfl⟩

theorem winsSeries_mem (f : List Row) (t : String) (c : Nat)
    (h : (t, c) ∈ winsSeries f) :
    t ≠ "No Result" ∧ c = (winRows f).countP (fun r => r.winner == t) := by
  rcases valueCounts_mem _ _ _ h with ⟨hmem, hcount⟩
  rcases List.mem_map.mp hmem with ⟨r, hr, hwt⟩
  have hpred := (List.mem_filter.mp hr).2
  constructor
  · intro hts
    rw [hwt, hts] at hpred
    simp at hpred
  · rw [hcount, count_map_eq_countP]

theorem sortLe_int_lt (l : List Int) :
    (sortLe intLe (uniq l)).Pairwise (fun a b => a < b) := by
  have htot : ∀ a b : Int, intLe a b = true ∨ intLe b a = true := by
    intro a b
    simp only [intLe, decide_eq_true_eq]
    omega
  have htrans : ∀ a b c : Int,
      intLe a b = true → intLe b c = true → intLe a c = true := by
    intro a b c hab hbc
    simp only [intLe, decide_eq_true_eq] at hab hbc ⊢
    omega
  have hle : (sortLe intLe (uniq l)).Pairwise (fun a b : Int => a ≤ b) := by
    refine (pairwise_sortLe intLe htot htrans (uniq l)).imp ?_
    intro a b hab
    simpa [intLe] using hab
  have hnd : (sortLe intLe (uniq l)).Nodup :=
    ((perm_sortLe intLe (uniq l)).symm).nodup (nodup_uniq l)
  refine (hle.and hnd).imp ?_
  intro a b hab
  exact lt_of_le_of_ne hab.1 hab.2

/-- C6 counterexample: with two tied winners, "B" occurring before "A", the
leaderboard keeps first-occurrence order, which violates the claimed
name-ascending tie-break. -/
theorem C6_counterexample :
    win_counts tieF = [("B", 1), ("A", 1)] ∧
    ¬ specLeaderboardOrdered (win_counts tieF) := by
  refine ⟨rfl, fun h => ?_⟩
  rw [show win_counts tieF = [("B", 1), ("A", 1)] from rfl] at h
  rcases List.pairwise_cons.mp h with ⟨hB, _⟩
  rcases hB ("A", 1) (List.mem_cons_self _ _) with h1 | ⟨_, h2⟩
  · omega
  · exact absurd h2 (by decide)

/-- C6 amended: the leaderboard counts wins per winner with "No Result"
excluded, is sorted descending by count with ties kept in first-occurrence
order (not name-ascending), and is truncated to 10 entries; on Scenario C it
is exactly [("Mumbai", 2), ("Chennai", 1)]. -/
theorem C6_leaderboard :
    (∀ f : List Row,
      (win_counts f).Pairwise (fun a b => b.2 ≤ a.2) ∧
      (win_counts f).length ≤ 10 ∧
      ∀ t c, (t, c) ∈ win_counts f →
        t ≠ "No Result" ∧ c = (winRows f).countP (fun r => r.winner == t)) ∧
    win_counts scenC = [("Mumbai", 2), ("Chennai", 1)] ∧
    win_counts tieF = [("B", 1), ("A", 1)] := by
  refine ⟨fun f => ⟨?_, ?_, ?_⟩, rfl, rfl⟩
  · exact List.Pairwise.sublist (List.take_sublist _ _) (valueCounts_sorted _)
  · exact List.length_take_le 10 _
  · intro t c h
    exact winsSeries_mem f t c ((List.take_sublist 10 _).subset h)

/-- Witness for the amended C6 at Scenario C. -/
theorem C6_leaderboard_witness :
    ("Mumbai", 2) ∈ win_counts scenC ∧
    ("Mumbai" ≠ "No Result" ∧
      2 = (winRows scenC).countP (fun r => r.winner == "Mumbai")) :=
  ⟨by decide, (C6_leaderboard.1 scenC).2.2 "Mumbai" 2 (by decide)⟩

/-- C7 counterexample: a filtered set containing a null-season match yields
an empty trend series — no null/undefined bucket exists at all, where the
claim requires one (placed last). -/
theorem C7_counterexample :
    (∃ r ∈ nullSeasonF, r.season = none) ∧
    season_counts nullSeasonF = [] := by
  refine ⟨⟨mkRow 1 none "X" (some 1) none, ?_, rfl⟩, rfl⟩
  exact List.mem_cons_self _ _

/-- C7 amended: the season trend series has one entry per non-null season
occurring in the filtered set (rows with a null season are dropped entirely),
each entry carrying the count of matches in that season, ordered strictly
ascending by season. -/
theorem C7_season_series (f : List Row) :
    (season_counts f).Pairwise (fun a b => a.1 < b.1) ∧
    ∀ s c, ((s, c) ∈ season_counts f ↔
      ((∃ r ∈ f, r.season = some s) ∧
        c = f.countP (fun r => r.season == some s))) := by
  constructor
  · refine List.Pairwise.map _ ?_ (sortLe_int_lt (f.filterMap (fun r => r.season)))
    intro a b hab
    exact hab
  · intro s c
    constructor
    · intro h
      rcases List.mem_map.mp h with ⟨k, hk, heq⟩
      simp only [Prod.mk.injEq] at heq
      obtain ⟨rfl, rfl⟩ := heq
      rw [mem_sortLe, mem_uniq, List.mem_filterMap] at hk
      exact ⟨hk, rfl⟩
    · rintro ⟨⟨r, hr, hrs⟩, rfl⟩
      refine List.mem_map.mpr ⟨s, ?_, rfl⟩
      rw [mem_sortLe, mem_uniq, List.mem_filterMap]
      exact ⟨r, hr, hrs⟩

/-- Witness for the amended C7 at Scenario C (all three matches in
season 2020). -/
theorem C7_season_series_witness :
    ((∃ r ∈ scenC, r.season = some 2020) ∧
      (3 : Nat) = scenC.countP (fun r => r.season == some 2020)) ∧
    ((2020 : Int), (3 : Nat)) ∈ season_counts scenC :=
  ⟨⟨⟨mkRow 1 (some 2020) "Mumbai" (some 20) none,
      List.mem_cons_self _ _, rfl⟩, by decide⟩,
   ((C7_season_series scenC).2 2020 3).mpr
     ⟨⟨mkRow 1 (some 2020) "Mumbai" (some 20) none,
        List.mem_cons_self _ _, rfl⟩, by decide⟩⟩

/-- C8 counterexample: in `c8F` the filtered set's season list contains 2021
(from a "No Result" match) and its winner list contains "Mumbai", but the
code's pivot grid has no ("Mumbai", 2021) cell: the grid only spans seasons
and winners of the non-"No Result" grouped rows. -/
theorem C8_counterexample :
    ("Mumbai" ∈ claimWinners c8F ∧ (2021 : Int) ∈ claimSeasons c8F) ∧
    ∀ cell ∈ pivotGrid c8F, ¬(cell.1 = "Mumbai" ∧ cell.2.1 = 2021) := by
  refine ⟨⟨by decide, by decide⟩, ?_⟩
  intro cell hc
  rw [show pivotGrid c8F = [("Mumbai", 2020, 1)] from rfl] at hc
  rcases List.mem_cons.mp hc with rfl | hc
  · rintro ⟨-, h⟩
    exact absurd h (by decide)
  · exact absurd hc (List.not_mem_nil _)

/-- C8 amended: the pivot grid is dense over the cross-product of the
seasons and winners occurring among the non-"No Result", non-null-season
rows of the filtered set: each such pair has a cell whose value is its win
count, which is 0 when no win is recorded for the pair. -/
theorem C8_dense_grid (f : List Row) (w : String) (s : Int)
    (hw : w ∈ matrixWinners f) (hs : s ∈ matrixSeasons f) :
    (w, s, cellCount f w s) ∈ pivotGrid f ∧
    ((∀ r ∈ winGrouped f, ¬(r.winner = w ∧ r.season = some s)) →
      cellCount f w s = 0) := by
  constructor
  · exact List.mem_flatMap.mpr ⟨w, hw, List.mem_map.mpr ⟨s, hs, rfl⟩⟩
  · intro h
    refine List.countP_eq_zero.mpr ?_
    intro r hr
    simpa [Bool.and_eq_true] using h r hr

/-- Witness for the amended C8: in the 2×2 grid of `wF`, the never-won pair
("Mumbai", 2021) has a cell and its value is 0. -/
theorem C8_dense_grid_witness :
    ("Mumbai" ∈ matrixWinners wF ∧ (2021 : Int) ∈ matrixSeasons wF) ∧
    ("Mumbai", (2021 : Int), cellCount wF "Mumbai" 2021) ∈ pivotGrid wF ∧
    cellCount wF "Mumbai" 2021 = 0 :=
  ⟨⟨by decide, by decide⟩,
   (C8_dense_grid wF "Mumbai" 2021 (by decide) (by decide)).1,
   (C8_dense_grid wF "Mumbai" 2021 (by decide) (by decide)).2 (by decide)⟩

end IPL
